import Mathlib

/-!
Verification of the Hyperliquid trading-bot / airdrop-farmer repository.

Shallow embedding of the decision logic of:
  * `trade_tracker.py` (PnL journaling),
  * `config.py` (tier table, extreme-RSI threshold),
  * `bot.py` (`get_tier`, `check_entry`, `get_ai_bias`),
  * `strategy_adapter.py` (`adapt`),
  * `chain_manager.py` (`BudgetTracker`),
  * `activity_planner.py` (`_generate_plan`, `_generate_times`),
  * `sentiment.py` (`_extract_score`, `get_combined_bias`),
  * `v6-ec2/strategy_optimizer.py` (`query_market_regime`, `optimize`).

Python floats are modelled as rationals (`ℚ`), Python `round(x, n)` as
round-to-nearest on `x·10^n` (ties differ from banker's rounding only at exact
halfway points), dictionaries as total functions with the `.get` default built
in, and network calls as `Option`-valued inputs.
-/

/-- Python `round(x, n)` idealised over ℚ: round to `n` decimal places. -/
def roundTo (n : ℕ) (x : ℚ) : ℚ := ((round (x * 10 ^ n) : ℤ) : ℚ) / 10 ^ n

/-- `max(-1.0, min(1.0, x))` as it appears in both score extractors. -/
def clamp1 (x : ℚ) : ℚ := max (-1) (min 1 x)

/-- Python `int(q)` (truncation toward zero). -/
def pyInt (q : ℚ) : ℤ := if 0 ≤ q then ⌊q⌋ else -⌊-q⌋

/-- Trade direction as used throughout `bot.py` and `trade_tracker.py`. -/
inductive Direction
  | LONG
  | SHORT
  deriving DecidableEq, Repr, Inhabited

/-- Three-valued directional bias (AI sentiment, liquidity zones). -/
inductive Bias
  | LONG
  | SHORT
  | NEUTRAL
  deriving DecidableEq, Repr, Inhabited

/-! ### `trade_tracker.py` — PnL on exit (claim C2) -/

/-- The fields of a tracker trade record that `log_exit` reads. -/
structure Trade where
  direction : Direction
  size : ℚ
  entry_price : ℚ
  leverage : ℚ
  deriving DecidableEq, Repr

/-- `direction_mult` in `TradeTracker.log_exit`. -/
def dirSign : Direction → ℚ
  | .LONG => 1
  | .SHORT => -1

/-- The pnl stored by `TradeTracker.log_exit`:
`round((exit_price - entry_price) * size * direction_mult, 4)`. -/
def logExitPnl (t : Trade) (exit_price : ℚ) : ℚ :=
  roundTo 4 ((exit_price - t.entry_price) * t.size * dirSign t.direction)

/-- The pnl_pct stored by `TradeTracker.log_exit` (rounded to 2 places,
zero when the margin denominator is not positive). -/
def logExitPnlPct (t : Trade) (exit_price : ℚ) : ℚ :=
  let pnl := (exit_price - t.entry_price) * t.size * dirSign t.direction
  let margin := t.entry_price * t.size / t.leverage
  if 0 < margin then roundTo 2 (pnl / margin * 100) else 0

/-! ### `config.py` tier table and `bot.get_tier` (claim C5) -/

/-- One row of `config.TIERS`. -/
structure Tier where
  min : ℚ
  max : ℚ
  leverage : ℕ
  risk_pct : ℚ
  tp_pct : ℚ
  sl_pct : ℚ
  deriving DecidableEq, Repr, Inhabited

/-- `config.TIERS`. -/
def TIERS : List Tier :=
  [⟨0, 30, 3, 30/100, 3/100, 15/1000⟩,
   ⟨30, 70, 5, 40/100, 35/1000, 18/1000⟩,
   ⟨70, 999, 5, 50/100, 4/100, 2/100⟩]

/-- `HyperliquidBot.get_tier`: first tier whose half-open interval contains the
balance; falls back to `TIERS[-1]` when none does. -/
def getTier (balance : ℚ) : Tier :=
  (TIERS.find? fun t => decide (t.min ≤ balance) && decide (balance < t.max)).getD
    (TIERS.getLastD default)

/-! ### `chain_manager.py` — `BudgetTracker` (claim C7) -/

/-- One value of `farmer_config.CHAINS` (fields read by the budget logic). -/
structure ChainCfg where
  chain_id : ℕ
  avg_gas_cost : ℚ
  eip1559 : Bool
  mainnet : Bool
  deriving DecidableEq, Repr, Inhabited

/-- `farmer_config.CHAINS` (rpcs lists omitted; they are irrelevant to the
budget tracker). -/
def CHAINS : List (String × ChainCfg) :=
  [("base", ⟨8453, 15/100, true, true⟩),
   ("arbitrum", ⟨42161, 25/100, true, true⟩),
   ("optimism", ⟨10, 15/100, true, true⟩),
   ("monad_testnet", ⟨10143, 0, false, false⟩),
   ("berachain_testnet", ⟨80084, 0, false, false⟩),
   ("linea_sepolia", ⟨59141, 0, true, false⟩)]

/-- `farmer_config.TOTAL_GAS_BUDGET_USD`. -/
def TOTAL_GAS_BUDGET_USD : ℚ := 2

/-- `farmer_config.RESERVE_PCT`. -/
def RESERVE_PCT : ℚ := 25/100

/-- `chain_manager.BudgetTracker` state; `spent_by_chain` is the dict with its
`.get(chain, 0.0)` default built in. -/
structure BudgetTracker where
  budget_usd : ℚ
  reserve_pct : ℚ
  spent_by_chain : String → ℚ
  total_spent : ℚ

/-- `BudgetTracker.__init__`. -/
def BudgetTracker.init (budget_usd reserve_pct : ℚ) : BudgetTracker :=
  ⟨budget_usd, reserve_pct, fun _ => 0, 0⟩

/-- `BudgetTracker.record_spend`. -/
def BudgetTracker.record_spend (bt : BudgetTracker) (chain : String) (amount_usd : ℚ) :
    BudgetTracker :=
  { bt with
    spent_by_chain :=
      Function.update bt.spent_by_chain chain (bt.spent_by_chain chain + amount_usd)
    total_spent := bt.total_spent + amount_usd }

/-- `BudgetTracker.get_remaining`. -/
def BudgetTracker.get_remaining (bt : BudgetTracker) : ℚ :=
  max 0 (bt.budget_usd * (1 - bt.reserve_pct) - bt.total_spent)

/-- `BudgetTracker.can_afford`. -/
def BudgetTracker.can_afford (bt : BudgetTracker) (chain : String) : Bool :=
  match CHAINS.lookup chain with
  | none => false
  | some cfg => decide (cfg.avg_gas_cost ≤ bt.get_remaining)

/-- Budget-tracker states reachable by the execution contract of
`airdrop_farmer` / `chain_manager.send_transaction`: starting from a fresh
tracker, every spend records the chain's configured average gas cost and is
preceded by a passing `can_afford` check. -/
inductive GuardedSpends : BudgetTracker → Prop
  | init (b r : ℚ) (h : 0 ≤ b * (1 - r)) : GuardedSpends (BudgetTracker.init b r)
  | spend (bt : BudgetTracker) (chain : String) (cfg : ChainCfg)
      (hr : GuardedSpends bt) (hc : CHAINS.lookup chain = some cfg)
      (ha : bt.can_afford chain = true) :
      GuardedSpends (bt.record_spend chain cfg.avg_gas_cost)

/-! ### Regex-based score extraction

`v6-ec2/strategy_optimizer.query_market_regime` and `sentiment._extract_score`
scan response text with `re.search(r'regime.?score[:\s]+([+-]?\d+\.?\d*)', ...)`
resp. `re.search(r'score[:\s]+([+-]?\d+\.?\d*)', ...)`, case-insensitively,
line by line.  The patterns are embedded below over `List Char` (texts are
`String.data`); `float(group(1))` is split into the decidable digit scan
(`PyNum`) and its rational value (`ratOfPyNum`). -/

/-- Python's `\s` class (ASCII range). -/
def isPySpace (c : Char) : Bool :=
  c == ' ' || c == '\t' || c == '\n' || c == '\r' || c == '\x0b' || c == '\x0c'

/-- Strip a lowercase literal from the input, case-insensitively; return the
remainder on success. -/
def stripLitCI : List Char → List Char → Option (List Char)
  | [], rest => some rest
  | _ :: _, [] => none
  | l :: ls, c :: cs => if c.toLower == l then stripLitCI ls cs else none

/-- Decimal value of a digit run. -/
def digitsVal (ds : List Char) : ℕ := ds.foldl (fun a c => a * 10 + (c.toNat - 48)) 0

/-- The capture group `[+-]?\d+\.?\d*` in decidable form: sign, integer part,
fraction digits value and count. -/
structure PyNum where
  neg : Bool
  intPart : ℕ
  fracNum : ℕ
  fracLen : ℕ
  deriving DecidableEq, Repr

/-- `float()` of the captured group. -/
def ratOfPyNum (p : PyNum) : ℚ :=
  (if p.neg then -1 else 1) * ((p.intPart : ℚ) + (p.fracNum : ℚ) / 10 ^ p.fracLen)

/-- Parse `[+-]?\d+\.?\d*` (greedy) at the head of the input. -/
def parseNumGroup (cs : List Char) : Option PyNum :=
  let sign : Bool × List Char :=
    match cs with
    | '+' :: r => (false, r)
    | '-' :: r => (true, r)
    | r => (false, r)
  let ds := sign.2.takeWhile (fun c => c.isDigit)
  if ds.isEmpty then none
  else
    match sign.2.drop ds.length with
    | '.' :: r2 =>
      let fs := r2.takeWhile (fun c => c.isDigit)
      some ⟨sign.1, digitsVal ds, digitsVal fs, fs.length⟩
    | _ => some ⟨sign.1, digitsVal ds, 0, 0⟩

/-- Match `[:\s]+` (greedy, at least one) followed by the number group. -/
def sepThenNum (cs : List Char) : Option PyNum :=
  let seps := cs.takeWhile (fun c => c == ':' || isPySpace c)
  if seps.isEmpty then none else parseNumGroup (cs.drop seps.length)

/-- Match `score[:\s]+([+-]?\d+\.?\d*)` at this position (case-insensitive). -/
def matchScoreAt (cs : List Char) : Option PyNum :=
  match stripLitCI ['s', 'c', 'o', 'r', 'e'] cs with
  | some rest => sepThenNum rest
  | none => none

/-- Match `regime.?score[:\s]+([+-]?\d+\.?\d*)` at this position; the greedy
`.?` first tries to consume one non-newline character and backtracks to the
empty alternative if the rest of the pattern then fails. -/
def matchRegimeAt (cs : List Char) : Option PyNum :=
  match stripLitCI ['r', 'e', 'g', 'i', 'm', 'e'] cs with
  | none => none
  | some rest =>
    let one : Option PyNum :=
      match rest with
      | c :: rest2 => if c == '\n' then none else matchScoreAt rest2
      | [] => none
    match one with
    | some v => some v
    | none => matchScoreAt rest

/-- `re.search`: try the position matcher at each suffix, leftmost first. -/
def searchAt (f : List Char → Option PyNum) : List Char → Option PyNum
  | [] => f []
  | c :: cs =>
    match f (c :: cs) with
    | some v => some v
    | none => searchAt f cs

/-- `re.search(r'regime.?score[:\s]+([+-]?\d+\.?\d*)', line, re.IGNORECASE)`. -/
def regimeLineSearch (line : List Char) : Option PyNum := searchAt matchRegimeAt line

/-- `re.search(r'score[:\s]+([+-]?\d+\.?\d*)', line, re.IGNORECASE)`. -/
def scoreLineSearch (line : List Char) : Option PyNum := searchAt matchScoreAt line

/-- Python `text.split('\n')`. -/
def splitNl : List Char → List (List Char)
  | [] => [[]]
  | c :: cs =>
    if c == '\n' then [] :: splitNl cs
    else
      match splitNl cs with
      | [] => [[c]]
      | l :: ls => (c :: l) :: ls

/-! ### `v6-ec2/strategy_optimizer.py` — regime query and optimize (claims C3, C8) -/

/-- The score-extraction loop of `query_market_regime`: `score = 0.0`, then for
each line of the response, on the first regex match set
`score = max(-1.0, min(1.0, float(group(1))))` and break. -/
def regimeScoreOfLines : List (List Char) → ℚ
  | [] => 0
  | l :: ls =>
    match regimeLineSearch l with
    | some p => clamp1 (ratOfPyNum p)
    | none => regimeScoreOfLines ls

/-- The regime score `query_market_regime` computes from a response text. -/
def extractRegimeScore (text : String) : ℚ := regimeScoreOfLines (splitNl text.data)

/-- `optimizer_state["current_regime"]` values set by `query_market_regime`. -/
inductive Regime
  | STRONG_BULL
  | MILD_BULL
  | RANGING
  | MILD_BEAR
  | STRONG_BEAR
  deriving DecidableEq, Repr

/-- The regime classification of `query_market_regime` (thresholds ±0.2, ±0.5). -/
def classifyRegime (score : ℚ) : Regime :=
  if score ≤ -(1/2) then .STRONG_BEAR
  else if score ≤ -(1/5) then .MILD_BEAR
  else if 1/2 ≤ score then .STRONG_BULL
  else if 1/5 ≤ score then .MILD_BULL
  else .RANGING

/-- `StrategyOptimizer.query_market_regime`: `none` when the key is missing or
the oracle call fails, otherwise regime and score from the response text. -/
def queryMarketRegime (response : Option String) : Option (Regime × ℚ) :=
  response.map fun analysis =>
    let score := extractRegimeScore analysis
    (classifyRegime score, score)

/-- The adjustments dict returned by `StrategyOptimizer.optimize` (a Python
dict; absent keys are `none`). -/
structure Adjustments where
  bias : Option String
  sl_adjust : Option ℚ
  tp_adjust : Option ℚ
  long_threshold : Option ℤ
  short_threshold : Option ℤ
  remove_asset : Option String
  deriving DecidableEq, Repr

/-- The empty adjustments dict. -/
def emptyAdjustments : Adjustments := ⟨none, none, none, none, none, none⟩

/-- The per-regime adjustments of `StrategyOptimizer.optimize` (step 3). -/
def regimeAdjustments : Regime → Adjustments
  | .STRONG_BEAR =>
    ⟨some "Favor shorts, tighten long SL", some (8/10), some (12/10), some 3, some 2, none⟩
  | .STRONG_BULL =>
    ⟨some "Favor longs, tighten short SL", some (12/10), some (8/10), some 2, some 3, none⟩
  | .RANGING =>
    ⟨some "Mean-reversion, tighter SL/TP", some (8/10), some (8/10), some 2, some 2, none⟩
  | .MILD_BEAR => ⟨some "Slight bear bias", some 1, some 1, some 2, some 2, none⟩
  | .MILD_BULL => ⟨some "Slight bull bias", some 1, some 1, some 2, some 2, none⟩

/-- The performance-stats fields `optimize` reads in step 4 (asset pruning). -/
structure OptStats where
  trades : ℕ
  worst_asset : Option String
  worst_pnl : ℚ

/-- `StrategyOptimizer.optimize`: base adjustments from the regime query,
plus the `remove_asset` overlay for a sufficiently bad worst asset. -/
def optimize (response : Option String) (stats : OptStats) : Adjustments :=
  let base :=
    match queryMarketRegime response with
    | some (regime, _) => regimeAdjustments regime
    | none => emptyAdjustments
  if 5 ≤ stats.trades then
    match stats.worst_asset with
    | some w => if stats.worst_pnl < -1 then { base with remove_asset := some w } else base
    | none => base
  else base

/-! ### `sentiment.py` — score extraction and combined bias (claims C9, C10) -/

/-- Python `str.strip()` (ASCII whitespace). -/
def pyStrip (cs : List Char) : List Char :=
  ((cs.dropWhile isPySpace).reverse.dropWhile isPySpace).reverse

/-- Python `str.lower()`. -/
def toLowerL (cs : List Char) : List Char := cs.map Char.toLower

/-- Method 1 of `_extract_score`: per-line `re.search(r'score[:\s]+...')`,
returning the clamped value of the first match (the `float()` of this group
never raises `ValueError`). -/
def extractScoreM1 : List (List Char) → Option ℚ
  | [] => none
  | l :: ls =>
    match scoreLineSearch l with
    | some p => some (clamp1 (ratOfPyNum p))
    | none => extractScoreM1 ls

/-- Match the group-and-trailer part `([+-]?0\.\d+)(?:\s|$|\.)` of the
method-2 pattern at the head of the input; returns the group and the number
of characters consumed. -/
def standaloneNumAt (cs : List Char) : Option (PyNum × ℕ) :=
  let sign : Bool × ℕ :=
    match cs with
    | '+' :: _ => (false, 1)
    | '-' :: _ => (true, 1)
    | _ => (false, 0)
  match cs.drop sign.2 with
  | '0' :: '.' :: r2 =>
    let fs := r2.takeWhile (fun c => c.isDigit)
    if fs.isEmpty then none
    else
      match r2.drop fs.length with
      | [] => some (⟨sign.1, 0, digitsVal fs, fs.length⟩, sign.2 + 2 + fs.length)
      | c :: _ =>
        if isPySpace c || c == '.' then
          some (⟨sign.1, 0, digitsVal fs, fs.length⟩, sign.2 + 2 + fs.length + 1)
        else none
  | _ => none

/-- `re.findall(r'(?:^|\s)([+-]?0\.\d+)(?:\s|$|\.)', text)`: left-to-right,
non-overlapping scan.  `skip` counts characters still inside the previous
match (a search never restarts inside a match); `atStart` is true only at
position 0, where the `^` alternative applies before the `\s` one. -/
def findallGo : ℕ → Bool → List Char → List PyNum
  | _ + 1, _, [] => []
  | 0, _, [] => []
  | k + 1, _, _ :: rest => findallGo k false rest
  | 0, atStart, c :: rest =>
    match (if atStart then standaloneNumAt (c :: rest) else none) with
    | some (v, n) => v :: findallGo (n - 1) false rest
    | none =>
      if isPySpace c then
        match standaloneNumAt rest with
        | some (v, n) => v :: findallGo n false rest
        | none => findallGo 0 false rest
      else findallGo 0 false rest

/-- All method-2 matches of a text. -/
def findallStandalone (cs : List Char) : List PyNum := findallGo 0 true cs

/-- `bullish_words` of `_extract_score`. -/
def BULLISH_WORDS : List (List Char) :=
  ["bullish".data, "recovery".data, "bounce".data, "support holding".data,
   "accumulation".data, "buying".data, "upside".data, "breakout".data,
   "rally".data, "momentum up".data]

/-- `bearish_words` of `_extract_score`. -/
def BEARISH_WORDS : List (List Char) :=
  ["bearish".data, "breakdown".data, "crash".data, "capitulation".data,
   "sell-off".data, "declining".data, "downside".data, "dump".data,
   "lower".data, "weak".data, "bearish momentum".data,
   "strong bearish".data, "negative momentum".data]

/-- Method 3 of `_extract_score`: polarity keyword counting over the
lower-cased text, mapped to the discrete ladder {±0.2, ±0.4, ±0.6}. -/
def keywordScore (textLower : List Char) : ℚ :=
  let bull := (BULLISH_WORDS.filter fun w => decide (w <:+: textLower)).length
  let bear := (BEARISH_WORDS.filter fun w => decide (w <:+: textLower)).length
  if bull < bear then
    if 4 ≤ bear then -(6/10) else if 2 ≤ bear then -(4/10) else -(2/10)
  else if bear < bull then
    if 4 ≤ bull then 6/10 else if 2 ≤ bull then 4/10 else 2/10
  else 0

/-- `SentimentAnalyzer._extract_score`: method 1 (per-line `SCORE:` pattern on
the stripped text), then method 2 (last standalone signed decimal), then
method 3 (keyword count), else 0. -/
def extractScore (text : String) : ℚ :=
  match extractScoreM1 (splitNl (pyStrip text.data)) with
  | some v => v
  | none =>
    match (findallStandalone text.data).getLast? with
    | some p => clamp1 (ratOfPyNum p)
    | none => keywordScore (toLowerL text.data)

/-- The score-to-bias cutoffs of `get_combined_bias` (±0.25). -/
def biasOfScore (score : ℚ) : Bias :=
  if score ≤ -(1/4) then .SHORT
  else if 1/4 ≤ score then .LONG
  else .NEUTRAL

/-- Result of `get_combined_bias` (the `analyses` dict is omitted). -/
structure BiasResult where
  bias : Bias
  score : ℚ
  sources : ℕ
  deriving DecidableEq, Repr

/-- `SentimentAnalyzer.get_combined_bias`, with the Perplexity call modelled
as `Option String`: `none` when the key is missing, the HTTP call fails or
raises (all absorbed inside `get_perplexity_analysis`), `some analysis` on a
200 response. -/
def getCombinedBias (perplexityResponse : Option String) : BiasResult :=
  match perplexityResponse with
  | some analysis =>
    let s := extractScore analysis
    ⟨biasOfScore s, s, 1⟩
  | none => ⟨biasOfScore 0, 0, 0⟩

/-! ### `bot.py` — `get_ai_bias` cache policy (claim C9) -/

/-- A `cached_bias` entry as read by `get_ai_bias` (bias and score). -/
structure CachedBias where
  bias : Bias
  score : ℚ
  deriving DecidableEq, Repr

/-- `config.SENTIMENT_CHECK_INTERVAL_MIN`. -/
def SENTIMENT_CHECK_INTERVAL_MIN : ℚ := 60

/-- `HyperliquidBot.get_ai_bias`: the cache entry carries its age in minutes;
the Boolean records whether the oracle was queried.  A fresh cache entry is
returned before any query; otherwise `get_combined_bias` runs (it is total:
oracle failures are absorbed into a `none` response, so the `except` branch of
`get_ai_bias` is unreachable in this model). -/
def getAiBias (cached : Option (CachedBias × ℚ)) (oracleResponse : Option String) :
    CachedBias × Bool :=
  match cached with
  | some (v, age) =>
    if age < SENTIMENT_CHECK_INTERVAL_MIN then (v, false)
    else
      let r := getCombinedBias oracleResponse
      (⟨r.bias, r.score⟩, true)
  | none =>
    let r := getCombinedBias oracleResponse
    (⟨r.bias, r.score⟩, true)

/-! ### `bot.py` — `check_entry` scoring (claim C1) -/

/-- The indicator bundle returned by `indicators.get_all_signals` (the fields
`check_entry` reads). -/
structure Signals where
  price : ℚ
  rsi : ℚ
  adx : ℚ
  plus_di : ℚ
  minus_di : ℚ
  bb_upper : ℚ
  bb_lower : ℚ
  volume_ratio : ℚ
  below_lower_bb : Bool
  above_upper_bb : Bool
  rsi_oversold : Bool
  rsi_overbought : Bool
  trending : Bool
  trend_bullish : Bool
  trend_bearish : Bool
  momentum_bullish : Bool
  momentum_bearish : Bool
  volume_confirmed : Bool
  deriving DecidableEq, Repr

/-- `config.EXTREME_RSI_THRESHOLD`. -/
def EXTREME_RSI_THRESHOLD : ℚ := 25

/-- `HyperliquidBot.check_entry`, with the per-asset data fetches as inputs:
the primary-timeframe bundle (the claim presupposes it is available, i.e.
`get_all_signals` returned one), the optional 1h and 4h bundles, the AI bias,
the optional liquidity-zone bias and orderbook ratio, the adapter threshold
and the optional regime threshold overrides.  The logging is dropped; the
result is the chosen direction (the source pairs it with the signals
snapshot). -/
def checkEntry (signals : Signals) (signals1h signals4h : Option Signals)
    (aiBias : Bias) (liqBias : Option Bias) (obRatio : Option ℚ)
    (adapterThreshold : ℕ) (regimeLongThreshold regimeShortThreshold : Option ℕ) :
    Option Direction :=
  let extreme1h : Bool :=
    match signals1h with
    | some s1h => decide (s1h.rsi < EXTREME_RSI_THRESHOLD)
    | none => false
  if extreme1h then some .LONG
  else if signals.rsi < EXTREME_RSI_THRESHOLD then some .LONG
  else
    let long1 : ℕ := if signals.volume_confirmed then
      (if signals.below_lower_bb then 1 else 0) + (if signals.rsi_oversold then 1 else 0)
      else 0
    let short1 : ℕ := if signals.volume_confirmed then
      (if signals.above_upper_bb then 1 else 0) + (if signals.rsi_overbought then 1 else 0)
      else 0
    let long2 := long1 + (if signals.trending && signals.trend_bullish then 1 else 0)
    let short2 := short1 +
      (if signals.trending && !signals.trend_bullish && signals.trend_bearish then 1 else 0)
    let long3 := long2 + (if aiBias = Bias.LONG then 1 else 0)
    let short3 := short2 + (if aiBias = Bias.SHORT then 1 else 0)
    let long4 := long3 + (if signals.momentum_bullish then 1 else 0)
    let short4 := short3 +
      (if !signals.momentum_bullish && signals.momentum_bearish then 1 else 0)
    let long5 := long4 + (match liqBias with | some Bias.LONG => 1 | _ => 0)
    let short5 := short4 + (match liqBias with | some Bias.SHORT => 1 | _ => 0)
    let long6 := long5 +
      (match obRatio with | some r => if 3/2 < r then 1 else 0 | none => 0)
    let short6 := short5 +
      (match obRatio with
        | some r => if 3/2 < r then 0 else if r < 67/100 then 1 else 0
        | none => 0)
    let long7 := long6 +
      (match signals1h with | some s => if s.rsi < 50 then 1 else 0 | none => 0)
    let short7 := short6 +
      (match signals1h with
        | some s => if s.rsi < 50 then 0 else if 50 < s.rsi then 1 else 0
        | none => 0)
    let long8 := long7 +
      (match signals4h with | some s => if s.rsi < 50 then 1 else 0 | none => 0)
    let short8 := short7 +
      (match signals4h with
        | some s => if s.rsi < 50 then 0 else if 50 < s.rsi then 1 else 0
        | none => 0)
    let longThresh := regimeLongThreshold.getD adapterThreshold
    let shortThresh := regimeShortThreshold.getD adapterThreshold
    if longThresh ≤ long8 ∧ short8 < long8 then some .LONG
    else if shortThresh ≤ short8 ∧ long8 < short8 then some .SHORT
    else none

/-! ### `strategy_adapter.py` — `adapt` (claim C4) -/

/-- One value of the `per_signal` table of `TradeTracker.get_stats`. -/
structure SignalStat where
  times_active : ℕ
  win_rate : ℚ
  deriving Repr

/-- `strategy_adapter.SIGNAL_TO_WEIGHT`. -/
def SIGNAL_TO_WEIGHT : List (String × String) :=
  [("below_lower_bb", "bb"), ("above_upper_bb", "bb"), ("rsi_oversold", "rsi"),
   ("rsi_overbought", "rsi"), ("trending", "adx"), ("ai_bias_aligned", "ai_bias")]

/-- `strategy_adapter.MIN_WEIGHT`. -/
def MIN_WEIGHT : ℚ := 1/2

/-- `strategy_adapter.MAX_WEIGHT`. -/
def MAX_WEIGHT : ℚ := 2

/-- The adapter state fields that `adapt` steps 1–2 read and write;
`signal_weights` is the dict with its `.get(key, 1.0)` default built in. -/
structure AdapterState where
  min_score_threshold : ℤ
  signal_weights : String → ℚ

/-- Step 1 of `StrategyAdapter.adapt`: move the threshold on extreme global
win rates, clamped to [2, 4]. -/
def adaptThreshold (old : ℤ) (win_rate : ℚ) : ℤ :=
  if win_rate < 40 then min (old + 1) 4
  else if 65 < win_rate then max (old - 1) 2
  else old

/-- One iteration of step 2 of `StrategyAdapter.adapt`: rescale the weight
behind a per-signal stat by 0.7 / 1.3, clamp to [0.5, 2.0], round to 2
places, and store it only when it changed. -/
def adaptWeightStep (w : String → ℚ) (entry : String × SignalStat) : String → ℚ :=
  match SIGNAL_TO_WEIGHT.lookup entry.1 with
  | none => w
  | some weight_key =>
    if entry.2.times_active < 3 then w
    else
      let old := w weight_key
      let nw :=
        if entry.2.win_rate < 35 then max (old * (7/10)) MIN_WEIGHT
        else if 65 < entry.2.win_rate then min (old * (13/10)) MAX_WEIGHT
        else old
      if nw ≠ old then Function.update w weight_key (roundTo 2 nw) else w

/-- `StrategyAdapter.adapt`, steps 1–2 (threshold and signal weights), driven
by `get_stats(last_n=20)`.  Steps 3–5 of the source touch only the
blocked-asset list, the counters and the bounded adaptation log; they do not
read or write the threshold or the weights. -/
def adapt (st : AdapterState) (total_trades : ℕ) (win_rate : ℚ)
    (per_signal : List (String × SignalStat)) : AdapterState :=
  if total_trades < 5 then st
  else
    { min_score_threshold := adaptThreshold st.min_score_threshold win_rate
      signal_weights := per_signal.foldl adaptWeightStep st.signal_weights }

/-! ### `activity_planner.py` — daily plan generation (claim C6) -/

/-- `activity_planner.ACTION_TYPES`. -/
inductive ActionType
  | swap_eth_to_token
  | swap_token_to_eth
  | self_transfer
  | lp_add
  deriving DecidableEq, Repr

/-- The ordered action-type list the planner draws from. -/
def ACTION_TYPES : List ActionType :=
  [.swap_eth_to_token, .swap_token_to_eth, .self_transfer, .lp_add]

/-- `farmer_config.DAILY_MAX_ACTIONS`. -/
def DAILY_MAX_ACTIONS : ℕ := 5

/-- `farmer_config.WEEKEND_REDUCTION`. -/
def WEEKEND_REDUCTION : ℚ := 1/2

/-- `farmer_config.FARMING_DURATION_DAYS`. -/
def FARMING_DURATION_DAYS : ℤ := 60

/-- `farmer_config.ACTIVE_HOURS` (UTC day window). -/
def ACTIVE_HOURS : ℤ × ℤ := (8, 23)

/-- `random.randint(a, b)` driven by a draw `r` (requires `a ≤ b` in Python). -/
def pyRandint (a b : ℕ) (r : ℕ) : ℕ := a + r % (b + 1 - a)

/-- The time-of-day (in hours) built by `_generate_times` from a cursor value:
`hour = int(current_h)`, `minute = int((current_h - hour) * 60)`, plus the
random second. -/
def timeOfHours (current : ℚ) (sec : ℕ) : ℚ :=
  let hour : ℤ := pyInt current
  let minute : ℤ := pyInt ((current - hour) * 60)
  (hour : ℚ) + (minute : ℚ) / 60 + (sec : ℚ) / 3600

/-- The loop of `_generate_times`: `i` indexes the random draws (`g` the
Gaussian gap draws, `u` the end-clip `uniform(0.1, 0.5)` draws, `s` the
second draws), `k` the remaining iterations, `current` the hour cursor. -/
def genTimesGo (g u : ℕ → ℚ) (s : ℕ → ℕ) (endH : ℤ) : ℕ → ℕ → ℚ → List ℚ
  | _, 0, _ => []
  | i, k + 1, current =>
    let gap := max (1/2) (g i)
    let c1 := current + gap
    let c2 := if (endH : ℚ) ≤ c1 then (endH : ℚ) - u i else c1
    timeOfHours c2 (s i) :: genTimesGo g u s endH (i + 1) k c2

/-- `ActivityPlanner._generate_times`: empty for a non-positive count or a
start past the end; otherwise the generated times, sorted ascending. -/
def genTimes (g u : ℕ → ℚ) (s : ℕ → ℕ) (count : ℕ) (start : ℚ) (endH : ℤ) : List ℚ :=
  if count = 0 ∨ (endH : ℚ) ≤ start then []
  else List.insertionSort (· ≤ ·) (genTimesGo g u s endH 0 count start)

/-- One plan entry (`params` and the date part of the id are omitted; they are
irrelevant to times and types). -/
structure PlanAction where
  idx : ℕ
  time_utc : ℚ
  action_type : ActionType
  chain : String
  status : String
  deriving Repr

/-- `random.choice([t for t in ACTION_TYPES if t != last_type])`, driven by an
index draw `r`. -/
def pickType (last : Option ActionType) (r : ℕ) : ActionType :=
  let available := ACTION_TYPES.filter fun a => decide (¬ last = some a)
  available.getD (r % available.length) ActionType.swap_eth_to_token

/-- The action-building loop of `_generate_plan`: for each time, draw
uniformly (via index draws `t`) from the action types minus the previous one. -/
def buildActions (t : ℕ → ℕ) : ℕ → Option ActionType → List ℚ → List PlanAction
  | _, _, [] => []
  | i, last, time :: rest =>
    let ty := pickType last (t i)
    ⟨i + 1, time, ty, "base", "pending"⟩ :: buildActions t (i + 1) (some ty) rest

/-- `ActivityPlanner._generate_plan`.  The date is abstracted to its weekday,
its time-of-day in hours and the elapsed days since the campaign start;
randomness is abstracted to the draw streams (`rInt` for the action-count
`randint`, `g`/`u`/`s` for `_generate_times`, `t` for the type choices). -/
def genPlan (weekday : ℕ) (nowHour : ℚ) (daysElapsed : ℤ) (budgetRemaining : ℚ)
    (rInt : ℕ) (g u : ℕ → ℚ) (s : ℕ → ℕ) (t : ℕ → ℕ) : List PlanAction :=
  let is_weekend := 5 ≤ weekday
  let maxActions : ℕ :=
    if is_weekend then
      max 1 (pyInt ((DAILY_MAX_ACTIONS : ℚ) * WEEKEND_REDUCTION)).toNat
    else DAILY_MAX_ACTIONS
  let daysLeft : ℤ := max 1 (FARMING_DURATION_DAYS - max 0 daysElapsed)
  let dailyGasBudget := budgetRemaining / (daysLeft : ℚ)
  let avgCost := ((CHAINS.lookup "base").getD default).avg_gas_cost
  let affordable : ℤ :=
    if 0 < avgCost then pyInt (dailyGasBudget / avgCost) else (maxActions : ℤ)
  let numActions0 := pyRandint 2 (min (maxActions : ℤ) (max 2 affordable)).toNat rInt
  let startH := ACTIVE_HOURS.1
  let endH := ACTIVE_HOURS.2
  let effectiveStart0 : ℚ := max (startH : ℚ) (nowHour + 1/2)
  let late := ((endH : ℚ) - 1 ≤ effectiveStart0)
  let numActions := if late then min numActions0 2 else numActions0
  let effectiveStart :=
    if late then min (nowHour + 1/4) ((endH : ℚ) - 1/2) else effectiveStart0
  let times := genTimes g u s numActions effectiveStart endH
  buildActions t 0 none times

/-! ## Theorems -/

/-- Helper: `round` on ℚ is monotone. -/
theorem roundQ_mono {x y : ℚ} (h : x ≤ y) : round x ≤ round y := by
  rw [round_eq, round_eq]
  exact Int.floor_le_floor (by linarith)

/-- Helper: `roundTo n` stays within any interval with endpoints representable
at `n` decimal places. -/
theorem roundTo_mem_Icc {n : ℕ} {lo hi x : ℚ}
    (hlo : lo * 10 ^ n = (⌊lo * 10 ^ n⌋ : ℚ)) (hhi : hi * 10 ^ n = (⌊hi * 10 ^ n⌋ : ℚ))
    (h1 : lo ≤ x) (h2 : x ≤ hi) : lo ≤ roundTo n x ∧ roundTo n x ≤ hi := by
  have hpow : (0:ℚ) < 10 ^ n := by positivity
  have hl : round (lo * 10 ^ n) ≤ round (x * 10 ^ n) :=
    roundQ_mono (by nlinarith)
  have hh : round (x * 10 ^ n) ≤ round (hi * 10 ^ n) :=
    roundQ_mono (by nlinarith)
  have hle : (round (lo * 10 ^ n) : ℚ) = lo * 10 ^ n := by
    rw [hlo, round_intCast]
  have hhe : (round (hi * 10 ^ n) : ℚ) = hi * 10 ^ n := by
    rw [hhi, round_intCast]
  constructor
  · rw [roundTo, le_div_iff₀ hpow]
    calc lo * 10 ^ n = (round (lo * 10 ^ n) : ℚ) := hle.symm
    _ ≤ (round (x * 10 ^ n) : ℚ) := by exact_mod_cast hl
  · rw [roundTo, div_le_iff₀ hpow]
    calc (round (x * 10 ^ n) : ℚ) ≤ (round (hi * 10 ^ n) : ℚ) := by exact_mod_cast hh
    _ = hi * 10 ^ n := hhe

/-- Claim C2 (counterexample): the stored pnl is rounded to 4 decimal places, so
the 1e-6 bound fails: a LONG of size 1 entered at 100 and exited at
100 + 1/50000 has raw pnl 1/50000 = 2e-5, stored pnl 0, error 2e-5 ≥ 1e-6. -/
theorem pnl_bound_1e6_fails :
    ¬ (|logExitPnl ⟨Direction.LONG, 1, 100, 3⟩ (100 + 1/50000) -
        ((100 + 1/50000 : ℚ) - 100) * 1 * dirSign Direction.LONG| < 1/1000000) := by
  have h5 : round ((1:ℚ)/5) = 0 := by
    have he : (1:ℚ)/5 + 1/2 = 7/10 := by norm_num
    rw [round_eq, he, Int.floor_eq_iff] <;> norm_num
  simp only [logExitPnl, roundTo, dirSign]
  have harg : ((100 + 1/50000 : ℚ) - 100) * 1 * 1 * 10 ^ 4 = 1/5 := by norm_num
  rw [harg, h5]
  have habs : |(1:ℚ)/50000| = 1/50000 := abs_of_nonneg (by norm_num)
  norm_num [habs]

/-- Claim C2 (amended): for every trade closed through `log_exit`, the recorded
pnl differs from `(exitPx − entryPx) × size × dirSign(direction)` by at most
5e-5 (half an ulp of the 4-decimal rounding). -/
theorem pnl_close_to_raw (t : Trade) (px : ℚ) :
    |logExitPnl t px - (px - t.entry_price) * t.size * dirSign t.direction| ≤ 1/20000 := by
  set y : ℚ := (px - t.entry_price) * t.size * dirSign t.direction with hy
  have h : |y * 10 ^ 4 - round (y * 10 ^ 4)| ≤ 1 / 2 := abs_sub_round (y * 10 ^ 4)
  have heq : logExitPnl t px - y = (((round (y * 10 ^ 4) : ℤ) : ℚ) - y * 10 ^ 4) / 10 ^ 4 := by
    rw [logExitPnl, roundTo, hy]
    ring
  rw [heq, abs_div, abs_sub_comm]
  rw [show |(10:ℚ) ^ 4| = 10 ^ 4 by norm_num]
  rw [div_le_iff₀ (by norm_num : (0:ℚ) < 10 ^ 4)]
  calc |y * 10 ^ 4 - ((round (y * 10 ^ 4) : ℤ) : ℚ)| ≤ 1 / 2 := h
  _ ≤ 1 / 20000 * 10 ^ 4 := by norm_num

/-- Claim C5 (counterexample): the tier intervals do not cover `[0, +∞)` — no
row of `TIERS` contains the account value 999 (the last row stops at 999), yet
`get_tier` still returns the last row there. -/
theorem tiers_do_not_cover_999 :
    (∀ t ∈ TIERS, ¬ (t.min ≤ (999:ℚ) ∧ (999:ℚ) < t.max)) ∧
      getTier 999 = TIERS.getLastD default := by
  constructor
  · intro t ht
    fin_cases ht <;> norm_num
  · have h1 : ¬ (999:ℚ) < 30 := by norm_num
    have h2 : ¬ (999:ℚ) < 70 := by norm_num
    have h3 : ¬ (999:ℚ) < 999 := by norm_num
    simp [getTier, TIERS, List.find?, h1, h2, h3]

/-- Claim C5 (amended): the tier intervals are contiguous and cover `[0, 999)`;
for every account value in `[0, 999)`, `get_tier` returns the (unique, hence
first) row containing it, and for values ≥ 999 it falls back to the last row. -/
theorem getTier_spec (b : ℚ) (h0 : 0 ≤ b) :
    (b < 999 → getTier b ∈ TIERS ∧ (getTier b).min ≤ b ∧ b < (getTier b).max ∧
      ∀ t ∈ TIERS, t.min ≤ b ∧ b < t.max → t = getTier b) ∧
    (999 ≤ b → getTier b = TIERS.getLastD default) := by
  constructor
  · intro hb
    by_cases h30 : b < 30
    · have hfind : getTier b = ⟨0, 30, 3, 30/100, 3/100, 15/1000⟩ := by
        simp [getTier, TIERS, List.find?, h0, h30]
      rw [hfind]
      refine ⟨by simp [TIERS], h0, h30, ?_⟩
      intro t ht ⟨ht1, ht2⟩
      fin_cases ht <;> simp_all <;> try linarith
    · by_cases h70 : b < 70
      · have hfind : getTier b = ⟨30, 70, 5, 40/100, 35/1000, 18/1000⟩ := by
          simp [getTier, TIERS, List.find?, h0, h30, h70, le_of_not_lt]
        rw [hfind]
        refine ⟨by simp [TIERS], le_of_not_lt h30, h70, ?_⟩
        intro t ht ⟨ht1, ht2⟩
        fin_cases ht <;> simp_all <;> try linarith
      · have hfind : getTier b = ⟨70, 999, 5, 50/100, 4/100, 2/100⟩ := by
          simp [getTier, TIERS, List.find?, h0, h30, h70, hb, le_of_not_lt]
        rw [hfind]
        refine ⟨by simp [TIERS], le_of_not_lt h70, hb, ?_⟩
        intro t ht ⟨ht1, ht2⟩
        fin_cases ht <;> simp_all <;> try linarith
  · intro hb
    have h1 : ¬ b < 30 := by linarith
    have h2 : ¬ b < 70 := by linarith
    have h3 : ¬ b < 999 := by linarith
    simp [getTier, TIERS, List.find?, h1, h2, h3]

/-- Claim C5 witness: an account value of 10 lies in the first tier. -/
theorem getTier_spec_witness :
    getTier 10 ∈ TIERS ∧ (getTier 10).min ≤ (10:ℚ) ∧ (10:ℚ) < (getTier 10).max := by
  obtain ⟨h, _⟩ := getTier_spec 10 (by norm_num)
  obtain ⟨h1, h2, h3, _⟩ := h (by norm_num)
  exact ⟨h1, h2, h3⟩

/-- Claim C7: `get_remaining` always equals
`max(0, budgetUsd × (1 − reservePct) − totalSpent)`, and in every tracker state
reachable by spends that record the chain's average gas cost after a passing
`can_afford` check, `totalSpent ≤ budgetUsd × (1 − reservePct)`. -/
theorem budget_invariant (bt : BudgetTracker) (h : GuardedSpends bt) :
    bt.get_remaining = max 0 (bt.budget_usd * (1 - bt.reserve_pct) - bt.total_spent) ∧
    bt.total_spent ≤ bt.budget_usd * (1 - bt.reserve_pct) := by
  refine ⟨rfl, ?_⟩
  induction h with
  | init b r h => simpa [BudgetTracker.init]
  | spend bt chain cfg hr hc ha ih =>
    have hrem : cfg.avg_gas_cost ≤ bt.get_remaining := by
      unfold BudgetTracker.can_afford at ha
      rw [hc] at ha
      exact of_decide_eq_true ha
    rw [BudgetTracker.get_remaining] at hrem
    rcases le_max_iff.mp hrem with h1 | h2
    · simp only [BudgetTracker.record_spend]
      linarith
    · simp only [BudgetTracker.record_spend]
      linarith

/-- Claim C7 witness: after one guarded spend on base, the invariant holds. -/
theorem budget_invariant_witness :
    ((BudgetTracker.init 2 (25/100)).record_spend "base" (15/100)).total_spent ≤
      2 * (1 - 25/100) := by
  have hl : CHAINS.lookup "base" = some ⟨8453, 15/100, true, true⟩ := rfl
  have ha : (BudgetTracker.init 2 (25/100)).can_afford "base" = true := by
    simp only [BudgetTracker.can_afford, hl, decide_eq_true_eq]
    norm_num [BudgetTracker.get_remaining, BudgetTracker.init]
  have h := budget_invariant _
    (GuardedSpends.spend (BudgetTracker.init 2 (25/100)) "base" ⟨8453, 15/100, true, true⟩
      (GuardedSpends.init 2 (25/100) (by norm_num)) hl ha)
  simpa [BudgetTracker.init, BudgetTracker.record_spend] using h.2

/-- Helper: the score-extraction loop returns the clamped value of the first
line on which the regime-score regex matches. -/
theorem regimeScoreOfLines_findSome (ls : List (List Char)) (p : PyNum)
    (h : ls.findSome? regimeLineSearch = some p) :
    regimeScoreOfLines ls = clamp1 (ratOfPyNum p) := by
  induction ls with
  | nil => simp [List.findSome?] at h
  | cons l ls ih =>
    cases he : regimeLineSearch l with
    | some q =>
      rw [List.findSome?, he] at h
      cases h
      rw [regimeScoreOfLines, he]
    | none =>
      rw [List.findSome?, he] at h
      rw [regimeScoreOfLines, he]
      exact ih h

/-- Claim C3: whenever the regime score parsed from the oracle response is
≤ −0.5, `query_market_regime` classifies the regime as STRONG_BEAR and
`optimize` returns adjustments with `long_threshold=3`, `short_threshold=2`,
`sl_adjust=0.8`, `tp_adjust=1.2`, for any performance stats. -/
theorem strong_bear_adjustments (t : String) (stats : OptStats)
    (h : extractRegimeScore t ≤ -(1/2)) :
    queryMarketRegime (some t) = some (Regime.STRONG_BEAR, extractRegimeScore t) ∧
    (optimize (some t) stats).long_threshold = some 3 ∧
    (optimize (some t) stats).short_threshold = some 2 ∧
    (optimize (some t) stats).sl_adjust = some (8/10) ∧
    (optimize (some t) stats).tp_adjust = some (12/10) := by
  have hc : classifyRegime (extractRegimeScore t) = Regime.STRONG_BEAR := by
    unfold classifyRegime
    rw [if_pos h]
  have hq : queryMarketRegime (some t) = some (Regime.STRONG_BEAR, extractRegimeScore t) := by
    simp [queryMarketRegime, hc]
  have hopt : (optimize (some t) stats).long_threshold = some 3 ∧
      (optimize (some t) stats).short_threshold = some 2 ∧
      (optimize (some t) stats).sl_adjust = some (8/10) ∧
      (optimize (some t) stats).tp_adjust = some (12/10) := by
    simp only [optimize, hq]
    by_cases h1 : 5 ≤ stats.trades
    · rw [if_pos h1]
      cases hw : stats.worst_asset with
      | none => simp [regimeAdjustments]
      | some w =>
        by_cases h2 : stats.worst_pnl < -1
        · simp [h2, regimeAdjustments]
        · simp [h2, regimeAdjustments]
    · rw [if_neg h1]
      simp [regimeAdjustments]
  exact ⟨hq, hopt.1, hopt.2.1, hopt.2.2.1, hopt.2.2.2⟩

/-- Claim C3 witness: the response `REGIME_SCORE: -0.7` parses to score −0.7,
giving STRONG_BEAR and the asymmetric thresholds. -/
theorem strong_bear_adjustments_witness :
    queryMarketRegime (some "REGIME_SCORE: -0.7") =
      some (Regime.STRONG_BEAR, extractRegimeScore "REGIME_SCORE: -0.7") ∧
    (optimize (some "REGIME_SCORE: -0.7") ⟨0, none, 0⟩).long_threshold = some 3 ∧
    (optimize (some "REGIME_SCORE: -0.7") ⟨0, none, 0⟩).short_threshold = some 2 ∧
    (optimize (some "REGIME_SCORE: -0.7") ⟨0, none, 0⟩).sl_adjust = some (8/10) ∧
    (optimize (some "REGIME_SCORE: -0.7") ⟨0, none, 0⟩).tp_adjust = some (12/10) := by
  apply strong_bear_adjustments
  have h1 : (splitNl ("REGIME_SCORE: -0.7").data).findSome? regimeLineSearch =
      some ⟨true, 0, 7, 1⟩ := by decide
  unfold extractRegimeScore
  rw [regimeScoreOfLines_findSome _ _ h1]
  norm_num [clamp1, ratOfPyNum, max_def, min_def]

/-- Claim C8 (counterexample): on a response with two matching regime-score
lines (`0.7` then `-0.7`), the loop in `query_market_regime` breaks on the
FIRST match, so the score used is 0.7, not the last line's −0.7. -/
theorem regime_score_not_last_match :
    ((splitNl ("REGIME_SCORE: 0.7\nREGIME_SCORE: -0.7").data).map regimeLineSearch =
      [some ⟨false, 0, 7, 1⟩, some ⟨true, 0, 7, 1⟩]) ∧
    extractRegimeScore "REGIME_SCORE: 0.7\nREGIME_SCORE: -0.7" ≠
      clamp1 (ratOfPyNum ⟨true, 0, 7, 1⟩) := by
  constructor
  · decide
  · have h1 : (splitNl ("REGIME_SCORE: 0.7\nREGIME_SCORE: -0.7").data).findSome?
        regimeLineSearch = some ⟨false, 0, 7, 1⟩ := by decide
    unfold extractRegimeScore
    rw [regimeScoreOfLines_findSome _ _ h1]
    norm_num [clamp1, ratOfPyNum, max_def, min_def]

/-- Claim C8 (amended): for every oracle response, the score used by
`query_market_regime` is the number parsed from the FIRST line matching the
regime-score pattern, clamped to [−1, 1]. -/
theorem regime_score_first_match (text : String) (p : PyNum)
    (h : (splitNl text.data).findSome? regimeLineSearch = some p) :
    extractRegimeScore text = clamp1 (ratOfPyNum p) :=
  regimeScoreOfLines_findSome _ _ h

/-- Claim C8 witness: on the two-match response, the score is the first line's
value 0.7. -/
theorem regime_score_first_match_witness :
    extractRegimeScore "REGIME_SCORE: 0.7\nREGIME_SCORE: -0.7" =
      clamp1 (ratOfPyNum ⟨false, 0, 7, 1⟩) :=
  regime_score_first_match _ ⟨false, 0, 7, 1⟩ (by decide)

/-- Helper: the clamp `max(-1, min(1, ·))` lands in [−1, 1]. -/
theorem clamp1_mem (x : ℚ) : -1 ≤ clamp1 x ∧ clamp1 x ≤ 1 :=
  ⟨le_max_left _ _, max_le (by norm_num) (min_le_left _ _)⟩

/-- Helper: a score produced by extraction method 1 lies in [−1, 1]. -/
theorem extractScoreM1_mem (ls : List (List Char)) (v : ℚ)
    (h : extractScoreM1 ls = some v) : -1 ≤ v ∧ v ≤ 1 := by
  induction ls with
  | nil => simp [extractScoreM1] at h
  | cons l ls ih =>
    rw [extractScoreM1] at h
    cases he : scoreLineSearch l with
    | some p =>
      rw [he] at h
      cases h
      exact clamp1_mem _
    | none =>
      rw [he] at h
      exact ih h

/-- Helper: the keyword-count ladder lies in [−1, 1]. -/
theorem keywordScore_mem (cs : List Char) : -1 ≤ keywordScore cs ∧ keywordScore cs ≤ 1 := by
  unfold keywordScore
  dsimp only
  split_ifs <;> norm_num

/-- Helper: `_extract_score` always returns a value in [−1, 1]. -/
theorem extractScore_mem (t : String) : -1 ≤ extractScore t ∧ extractScore t ≤ 1 := by
  unfold extractScore
  cases h1 : extractScoreM1 (splitNl (pyStrip t.data)) with
  | some v => exact extractScoreM1_mem _ _ h1
  | none =>
    simp only
    cases h2 : (findallStandalone t.data).getLast? with
    | some p => exact clamp1_mem _
    | none => exact keywordScore_mem _

/-- Helper: the SHORT cutoff of `get_combined_bias`. -/
theorem biasOfScore_short (s : ℚ) : biasOfScore s = Bias.SHORT ↔ s ≤ -(1/4) := by
  unfold biasOfScore
  split_ifs with h1 h2
  · exact iff_of_true rfl h1
  · exact ⟨fun h => h.elim, fun hc => absurd hc h1⟩
  · exact ⟨fun h => h.elim, fun hc => absurd hc h1⟩

/-- Helper: the LONG cutoff of `get_combined_bias`. -/
theorem biasOfScore_long (s : ℚ) : biasOfScore s = Bias.LONG ↔ 1/4 ≤ s := by
  unfold biasOfScore
  split_ifs with h1 h2
  · exact ⟨fun h => h.elim, fun hc => by linarith⟩
  · exact iff_of_true rfl h2
  · exact ⟨fun h => h.elim, fun hc => absurd hc h2⟩

/-- Helper: the NEUTRAL band of `get_combined_bias`. -/
theorem biasOfScore_neutral (s : ℚ) :
    biasOfScore s = Bias.NEUTRAL ↔ (-(1/4) < s ∧ s < 1/4) := by
  unfold biasOfScore
  split_ifs with h1 h2
  · exact ⟨fun h => h.elim, fun hc => by linarith [hc.1]⟩
  · exact ⟨fun h => h.elim, fun hc => by linarith [hc.2]⟩
  · exact iff_of_true rfl ⟨not_le.mp h1, not_le.mp h2⟩

/-- Claim C10: for every oracle outcome, `get_combined_bias` returns a score
in [−1, 1] and a bias that is the pure cutoff function of that score
(SHORT iff ≤ −0.25, LONG iff ≥ 0.25, NEUTRAL otherwise); when the oracle is
unavailable the score is 0 and the bias NEUTRAL. -/
theorem combined_bias_spec (response : Option String) :
    -1 ≤ (getCombinedBias response).score ∧ (getCombinedBias response).score ≤ 1 ∧
    ((getCombinedBias response).bias = Bias.SHORT ↔
      (getCombinedBias response).score ≤ -(1/4)) ∧
    ((getCombinedBias response).bias = Bias.LONG ↔
      1/4 ≤ (getCombinedBias response).score) ∧
    ((getCombinedBias response).bias = Bias.NEUTRAL ↔
      (-(1/4) < (getCombinedBias response).score ∧ (getCombinedBias response).score < 1/4)) ∧
    (response = none → (getCombinedBias response).score = 0 ∧
      (getCombinedBias response).bias = Bias.NEUTRAL) := by
  have key : ∃ s, (getCombinedBias response).bias = biasOfScore s ∧
      (getCombinedBias response).score = s ∧ -1 ≤ s ∧ s ≤ 1 ∧ (response = none → s = 0) := by
    cases response with
    | none => exact ⟨0, rfl, rfl, by norm_num, by norm_num, fun _ => rfl⟩
    | some t =>
      obtain ⟨h1, h2⟩ := extractScore_mem t
      exact ⟨extractScore t, rfl, rfl, h1, h2, by simp⟩
  obtain ⟨s, hb, hs, hl, hh, hn⟩ := key
  rw [hb, hs]
  refine ⟨hl, hh, biasOfScore_short s, biasOfScore_long s, biasOfScore_neutral s, ?_⟩
  intro h0
  have hz := hn h0
  subst hz
  refine ⟨rfl, ?_⟩
  unfold biasOfScore
  norm_num

/-- Claim C10 witness: with the oracle unavailable, the result is NEUTRAL
with score 0 (and in range). -/
theorem combined_bias_spec_witness :
    -1 ≤ (getCombinedBias none).score ∧
    (getCombinedBias none).score = 0 ∧ (getCombinedBias none).bias = Bias.NEUTRAL :=
  ⟨(combined_bias_spec none).1, (combined_bias_spec none).2.2.2.2.2 rfl⟩

/-- Claim C9: a cached bias younger than the 60-minute TTL is returned without
querying the oracle (whatever the oracle would have answered); when the cache
is stale or absent and the oracle fails, the result is NEUTRAL with score 0. -/
theorem ai_bias_cache_policy (cached : Option (CachedBias × ℚ)) (response : Option String) :
    (∀ v age, cached = some (v, age) → age < SENTIMENT_CHECK_INTERVAL_MIN →
      getAiBias cached response = (v, false)) ∧
    ((∀ v age, cached = some (v, age) → SENTIMENT_CHECK_INTERVAL_MIN ≤ age) →
      response = none →
      getAiBias cached response = (⟨Bias.NEUTRAL, 0⟩, true)) := by
  constructor
  · intro v age hc hfresh
    subst hc
    simp [getAiBias, hfresh]
  · intro hstale hresp
    subst hresp
    have hneutral : biasOfScore 0 = Bias.NEUTRAL := by
      unfold biasOfScore
      norm_num
    cases cached with
    | none => simp [getAiBias, getCombinedBias, hneutral]
    | some p =>
      obtain ⟨v, age⟩ := p
      have h60 : ¬ age < SENTIMENT_CHECK_INTERVAL_MIN := not_lt.mpr (hstale v age rfl)
      simp [getAiBias, h60, getCombinedBias, hneutral]

/-- Claim C9 witness: a 30-minute-old cache entry is returned unqueried, and
with no cache and a failing oracle the result is NEUTRAL. -/
theorem ai_bias_cache_policy_witness :
    getAiBias (some (⟨Bias.LONG, 1/2⟩, 30)) (some "x") = (⟨Bias.LONG, 1/2⟩, false) ∧
    getAiBias none none = (⟨Bias.NEUTRAL, 0⟩, true) :=
  ⟨(ai_bias_cache_policy (some (⟨Bias.LONG, 1/2⟩, 30)) (some "x")).1 _ _ rfl
      (by norm_num [SENTIMENT_CHECK_INTERVAL_MIN]),
    (ai_bias_cache_policy none none).2 (fun _ _ h => Option.noConfusion h) rfl⟩

/-- Claim C1: whenever the 1-hour RSI (if that bundle is available) or the
primary-timeframe RSI is below the hard threshold 25, `check_entry` returns
LONG — for every value of the AI bias, liquidity bias, orderbook ratio, 4h
bundle and thresholds, i.e. without consulting any other signal or the score
comparison. -/
theorem extreme_oversold_long (signals : Signals) (signals1h signals4h : Option Signals)
    (aiBias : Bias) (liqBias : Option Bias) (obRatio : Option ℚ)
    (adapterThreshold : ℕ) (rl rs : Option ℕ)
    (h : (∃ s1h, signals1h = some s1h ∧ s1h.rsi < EXTREME_RSI_THRESHOLD) ∨
         signals.rsi < EXTREME_RSI_THRESHOLD) :
    checkEntry signals signals1h signals4h aiBias liqBias obRatio
      adapterThreshold rl rs = some Direction.LONG := by
  rcases h with ⟨s1h, hs, hr⟩ | hr
  · subst hs
    simp [checkEntry, hr]
  · unfold checkEntry
    cases signals1h with
    | none => simp [hr]
    | some s =>
      by_cases h2 : s.rsi < EXTREME_RSI_THRESHOLD
      · simp [h2]
      · simp [h2, hr]

/-- Claim C1 witness: a primary bundle with RSI 20 forces LONG even with a
SHORT AI bias, SHORT liquidity bias and a deep-ask orderbook. -/
theorem extreme_oversold_long_witness :
    checkEntry ⟨100, 20, 0, 0, 0, 0, 0, 0, false, true, false, true,
        true, false, true, false, true, true⟩
      none none Bias.SHORT (some Bias.SHORT) (some (1/2)) 2 none none =
      some Direction.LONG :=
  extreme_oversold_long _ none none Bias.SHORT (some Bias.SHORT) (some (1/2)) 2 none none
    (Or.inr (by norm_num [EXTREME_RSI_THRESHOLD]))

/-- Helper: the threshold step keeps the threshold in [2, 4]. -/
theorem adaptThreshold_mem {old : ℤ} (h1 : 2 ≤ old) (h2 : old ≤ 4) (wr : ℚ) :
    2 ≤ adaptThreshold old wr ∧ adaptThreshold old wr ≤ 4 := by
  unfold adaptThreshold
  split_ifs <;> constructor <;> omega

/-- Helper: 2-decimal rounding preserves the weight band [0.5, 2]. -/
theorem roundTo2_weight_mem {x : ℚ} (h1 : 1/2 ≤ x) (h2 : x ≤ 2) :
    1/2 ≤ roundTo 2 x ∧ roundTo 2 x ≤ 2 := by
  have hlo : ((1:ℚ)/2) * 10 ^ 2 = (⌊((1:ℚ)/2) * 10 ^ 2⌋ : ℚ) := by
    have he : ((1:ℚ)/2) * 10 ^ 2 = ((50 : ℤ) : ℚ) := by norm_num
    rw [he, Int.floor_intCast]
  have hhi : (2:ℚ) * 10 ^ 2 = (⌊(2:ℚ) * 10 ^ 2⌋ : ℚ) := by
    have he : (2:ℚ) * 10 ^ 2 = ((200 : ℤ) : ℚ) := by norm_num
    rw [he, Int.floor_intCast]
  exact roundTo_mem_Icc hlo hhi h1 h2

/-- Helper: one weight-adjustment iteration keeps every weight in [0.5, 2]. -/
theorem adaptWeightStep_mem (w : String → ℚ) (entry : String × SignalStat)
    (hw : ∀ k, 1/2 ≤ w k ∧ w k ≤ 2) :
    ∀ k, 1/2 ≤ adaptWeightStep w entry k ∧ adaptWeightStep w entry k ≤ 2 := by
  intro k
  unfold adaptWeightStep
  cases hlk : SIGNAL_TO_WEIGHT.lookup entry.1 with
  | none => exact hw k
  | some wk =>
    simp only
    by_cases h3 : entry.2.times_active < 3
    · rw [if_pos h3]
      exact hw k
    · rw [if_neg h3]
      obtain ⟨ho1, ho2⟩ := hw wk
      set nw := (if entry.2.win_rate < 35 then max (w wk * (7/10)) MIN_WEIGHT
          else if 65 < entry.2.win_rate then min (w wk * (13/10)) MAX_WEIGHT else w wk)
        with hnwdef
      have hb : 1/2 ≤ nw ∧ nw ≤ 2 := by
        rw [hnwdef]
        split_ifs with ha hb2
        · constructor
          · calc (1:ℚ)/2 = MIN_WEIGHT := by norm_num [MIN_WEIGHT]
            _ ≤ max (w wk * (7/10)) MIN_WEIGHT := le_max_right _ _
          · apply max_le
            · linarith
            · norm_num [MIN_WEIGHT]
        · constructor
          · apply le_min
            · linarith
            · norm_num [MAX_WEIGHT]
          · calc min (w wk * (13/10)) MAX_WEIGHT ≤ MAX_WEIGHT := min_le_right _ _
            _ ≤ 2 := by norm_num [MAX_WEIGHT]
        · exact ⟨ho1, ho2⟩
      by_cases hne : nw ≠ w wk
      · rw [if_pos hne, Function.update_apply]
        split_ifs with hk
        · exact roundTo2_weight_mem hb.1 hb.2
        · exact hw k
      · rw [if_neg hne]
        exact hw k

/-- Helper: the full step-2 fold keeps every weight in [0.5, 2]. -/
theorem adaptWeights_mem (ps : List (String × SignalStat)) (w : String → ℚ)
    (hw : ∀ k, 1/2 ≤ w k ∧ w k ≤ 2) :
    ∀ k, 1/2 ≤ (ps.foldl adaptWeightStep w) k ∧ (ps.foldl adaptWeightStep w) k ≤ 2 := by
  induction ps generalizing w with
  | nil => exact hw
  | cons e ps ih => exact ih _ (adaptWeightStep_mem w e hw)

/-- Claim C4: from any adapter state with threshold in [2, 4] and all weights
in [0.5, 2], every completed `adapt()` run leaves the threshold in [2, 4] and
every weight in [0.5, 2], for any statistics feed. -/
theorem adapt_invariant (st : AdapterState) (total_trades : ℕ) (win_rate : ℚ)
    (per_signal : List (String × SignalStat))
    (hth1 : 2 ≤ st.min_score_threshold) (hth2 : st.min_score_threshold ≤ 4)
    (hw : ∀ k, 1/2 ≤ st.signal_weights k ∧ st.signal_weights k ≤ 2) :
    (2 ≤ (adapt st total_trades win_rate per_signal).min_score_threshold ∧
      (adapt st total_trades win_rate per_signal).min_score_threshold ≤ 4) ∧
    ∀ k, 1/2 ≤ (adapt st total_trades win_rate per_signal).signal_weights k ∧
      (adapt st total_trades win_rate per_signal).signal_weights k ≤ 2 := by
  unfold adapt
  split_ifs with h
  · exact ⟨⟨hth1, hth2⟩, hw⟩
  · exact ⟨adaptThreshold_mem hth1 hth2 _, adaptWeights_mem _ _ hw⟩

/-- Claim C4 witness: from the default state (threshold 2, weights 1), an
adaptation over 20 trades at 30% win rate with a weak `trending` signal stays
in bounds. -/
theorem adapt_invariant_witness :
    (2 ≤ (adapt ⟨2, fun _ => 1⟩ 20 30 [("trending", ⟨5, 20⟩)]).min_score_threshold ∧
      (adapt ⟨2, fun _ => 1⟩ 20 30 [("trending", ⟨5, 20⟩)]).min_score_threshold ≤ 4) ∧
    ∀ k, 1/2 ≤ (adapt ⟨2, fun _ => 1⟩ 20 30 [("trending", ⟨5, 20⟩)]).signal_weights k ∧
      (adapt ⟨2, fun _ => 1⟩ 20 30 [("trending", ⟨5, 20⟩)]).signal_weights k ≤ 2 :=
  adapt_invariant ⟨2, fun _ => 1⟩ 20 30 [("trending", ⟨5, 20⟩)]
    (by norm_num) (by norm_num) (fun _ => ⟨by norm_num, by norm_num⟩)

/-- Helper: truncating a cursor value to hour:minute and adding a sub-minute
second loses less than a minute downward and stays strictly before hour 23
when the cursor is. -/
theorem timeOfHours_mem {c : ℚ} {sec : ℕ} (h0 : 0 ≤ c) (hsec : sec ≤ 59) (hlt : c < 23) :
    c - 1/60 ≤ timeOfHours c sec ∧ timeOfHours c sec < 23 := by
  simp only [timeOfHours]
  have hcf : pyInt c = ⌊c⌋ := by
    unfold pyInt
    rw [if_pos h0]
  rw [hcf]
  have hfq : (0:ℚ) ≤ (c - ⌊c⌋) * 60 := by
    have := Int.floor_le c
    nlinarith
  have hmf : pyInt ((c - (⌊c⌋ : ℚ)) * 60) = ⌊(c - (⌊c⌋ : ℚ)) * 60⌋ := by
    unfold pyInt
    rw [if_pos hfq]
  rw [hmf]
  have hm0 : (0:ℤ) ≤ ⌊(c - (⌊c⌋ : ℚ)) * 60⌋ := Int.floor_nonneg.mpr hfq
  have hflt : (c - (⌊c⌋ : ℚ)) * 60 < 60 := by
    have := Int.lt_floor_add_one c
    nlinarith
  have hm60 : ⌊(c - (⌊c⌋ : ℚ)) * 60⌋ < 60 := Int.floor_lt.mpr (by exact_mod_cast hflt)
  have hmle : ((⌊(c - (⌊c⌋ : ℚ)) * 60⌋ : ℤ) : ℚ) ≤ (c - (⌊c⌋ : ℚ)) * 60 := Int.floor_le _
  have hmgt : (c - (⌊c⌋ : ℚ)) * 60 - 1 < ((⌊(c - (⌊c⌋ : ℚ)) * 60⌋ : ℤ) : ℚ) :=
    Int.sub_one_lt_floor _
  have hh23 : ⌊c⌋ < 23 := Int.floor_lt.mpr (by exact_mod_cast hlt)
  have hhq : ((⌊c⌋ : ℤ) : ℚ) ≤ 22 := by exact_mod_cast Int.lt_add_one_iff.mp hh23
  have hmq : ((⌊(c - (⌊c⌋ : ℚ)) * 60⌋ : ℤ) : ℚ) ≤ 59 := by
    exact_mod_cast Int.lt_add_one_iff.mp hm60
  have hsecq : ((sec : ℕ) : ℚ) ≤ 59 := by exact_mod_cast hsec
  have hsec0 : (0:ℚ) ≤ ((sec : ℕ) : ℚ) := by positivity
  constructor
  · linarith
  · linarith

/-- Helper: with end-clip draws in [0.1, 0.5] and second draws ≤ 59, every
time produced by the `_generate_times` loop from a cursor ≥ 8 lies in
[8, 23). -/
theorem genTimesGo_mem (g u : ℕ → ℚ) (s : ℕ → ℕ)
    (hu : ∀ i, 1/10 ≤ u i ∧ u i ≤ 1/2) (hs : ∀ i, s i ≤ 59) :
    ∀ (k i : ℕ) (current : ℚ), 8 ≤ current →
      ∀ x ∈ genTimesGo g u s 23 i k current, 8 ≤ x ∧ x < 23 := by
  intro k
  induction k with
  | zero =>
    intro i current _ x hx
    simp [genTimesGo] at hx
  | succ k ih =>
    intro i current hcur x hx
    simp only [genTimesGo] at hx
    set c2 := if ((23:ℤ):ℚ) ≤ current + max (1/2) (g i) then ((23:ℤ):ℚ) - u i
      else current + max (1/2) (g i) with hc2def
    have hc2 : 8 + 1/2 ≤ c2 ∧ c2 < 23 := by
      rw [hc2def]
      split_ifs with hclip
      · obtain ⟨hu1, hu2⟩ := hu i
        constructor
        · push_cast
          linarith
        · push_cast
          linarith
      · have hg : (1:ℚ)/2 ≤ max (1/2) (g i) := le_max_left _ _
        push_cast at hclip
        constructor
        · linarith
        · linarith [not_le.mp hclip]
    rcases List.mem_cons.mp hx with hx1 | hx2
    · subst hx1
      have hb := timeOfHours_mem (by linarith [hc2.1]) (hs i) hc2.2
      exact ⟨by linarith [hb.1, hc2.1], hb.2⟩
    · exact ih (i + 1) c2 (by linarith [hc2.1]) x hx2

/-- Helper: `buildActions` schedules exactly the given times, in order. -/
theorem buildActions_map_time (t : ℕ → ℕ) :
    ∀ (times : List ℚ) (i : ℕ) (last : Option ActionType),
      (buildActions t i last times).map PlanAction.time_utc = times := by
  intro times
  induction times with
  | nil => intro i last; rfl
  | cons x xs ih =>
    intro i last
    simp [buildActions, ih]

/-- Helper: the filtered action-type pool is never empty. -/
theorem availableTypes_pos (last : Option ActionType) :
    0 < (ACTION_TYPES.filter fun a => decide (¬ last = some a)).length := by
  cases last with
  | none => decide
  | some a => cases a <;> decide

/-- Helper: the drawn action type never equals the previous one. -/
theorem pickType_ne_last (last : Option ActionType) (r : ℕ) :
    ¬ last = some (pickType last r) := by
  unfold pickType
  have hlen := availableTypes_pos last
  have hlt : r % (ACTION_TYPES.filter fun a => decide (¬ last = some a)).length <
      (ACTION_TYPES.filter fun a => decide (¬ last = some a)).length :=
    Nat.mod_lt _ hlen
  rw [List.getD_eq_getElem _ _ hlt]
  have hmem := List.getElem_mem
    (l := ACTION_TYPES.filter fun a => decide (¬ last = some a)) (h := hlt)
  exact of_decide_eq_true (List.mem_filter.mp hmem).2

/-- Helper: adjacent action types of a built plan are distinct, and the first
one differs from the incoming `last_type`. -/
theorem buildActions_types_chain (t : ℕ → ℕ) :
    ∀ (times : List ℚ) (i : ℕ) (last : Option ActionType),
      List.Chain' (· ≠ ·) ((buildActions t i last times).map PlanAction.action_type) ∧
      ∀ b, ((buildActions t i last times).map PlanAction.action_type).head? = some b →
        last ≠ some b := by
  intro times
  induction times with
  | nil =>
    intro i last
    exact ⟨List.chain'_nil, by simp [buildActions]⟩
  | cons x xs ih =>
    intro i last
    simp only [buildActions, List.map_cons]
    obtain ⟨ihc, ihh⟩ := ih (i + 1) (some (pickType last (t i)))
    constructor
    · rw [List.chain'_cons']
      refine ⟨?_, ihc⟩
      intro y hy
      have := ihh y hy
      intro hxy
      exact this (by rw [hxy])
    · intro b hb
      simp only [List.head?_cons, Option.some.injEq] at hb
      subst hb
      exact pickType_ne_last last (t i)

/-- Helper: the invariants hold for any `_generate_times` call that starts at
or after the 8-o'clock day start. -/
theorem genTimes_plan_invariants (g u : ℕ → ℚ) (s : ℕ → ℕ) (t : ℕ → ℕ)
    (hu : ∀ i, 1/10 ≤ u i ∧ u i ≤ 1/2) (hs : ∀ i, s i ≤ 59)
    (n : ℕ) (es : ℚ) (hes : 8 ≤ es) :
    List.Chain' (· ≤ ·)
      ((buildActions t 0 none (genTimes g u s n es 23)).map PlanAction.time_utc) ∧
    List.Chain' (· ≠ ·)
      ((buildActions t 0 none (genTimes g u s n es 23)).map PlanAction.action_type) ∧
    ∀ a ∈ buildActions t 0 none (genTimes g u s n es 23),
      8 ≤ a.time_utc ∧ a.time_utc < 23 := by
  unfold genTimes
  split_ifs with hguard
  · simp [buildActions]
  · refine ⟨?_, (buildActions_types_chain t _ 0 none).1, ?_⟩
    · rw [buildActions_map_time]
      exact List.Pairwise.chain' (List.sorted_insertionSort _ _)
    · intro a ha
      have hmem : a.time_utc ∈
          List.insertionSort (· ≤ ·) (genTimesGo g u s 23 0 n es) := by
        have hmap := List.mem_map_of_mem PlanAction.time_utc ha
        rwa [buildActions_map_time] at hmap
      rw [List.mem_insertionSort] at hmem
      exact genTimesGo_mem g u s hu hs n 0 es hes _ hmem

/-- Claim C6 (amended): for every daily plan produced by the activity planner
(any date, budget, and random draws with the end-clip draws in [0.1, 0.5] and
second draws ≤ 59): the scheduled times are non-decreasing (ties are possible,
so not strictly increasing); adjacent action types are distinct; and every
scheduled time lies within the active-hours window [8, 23). -/
theorem plan_invariants (weekday : ℕ) (nowHour : ℚ) (daysElapsed : ℤ)
    (budgetRemaining : ℚ) (rInt : ℕ) (g u : ℕ → ℚ) (s : ℕ → ℕ) (t : ℕ → ℕ)
    (hu : ∀ i, 1/10 ≤ u i ∧ u i ≤ 1/2) (hs : ∀ i, s i ≤ 59) :
    List.Chain' (· ≤ ·)
      ((genPlan weekday nowHour daysElapsed budgetRemaining rInt g u s t).map
        PlanAction.time_utc) ∧
    List.Chain' (· ≠ ·)
      ((genPlan weekday nowHour daysElapsed budgetRemaining rInt g u s t).map
        PlanAction.action_type) ∧
    ∀ a ∈ genPlan weekday nowHour daysElapsed budgetRemaining rInt g u s t,
      8 ≤ a.time_utc ∧ a.time_utc < 23 := by
  simp only [genPlan, ACTIVE_HOURS]
  apply genTimes_plan_invariants g u s t hu hs
  split_ifs with hlate
  · push_cast at hlate ⊢
    have hnow : (22:ℚ) ≤ nowHour + 1/2 := by
      rcases le_max_iff.mp hlate with h | h
      · norm_num at h
      · linarith
    apply le_min
    · linarith
    · norm_num
  · push_cast
    exact le_max_left _ _

/-- Claim C6 (counterexample): plan times need not be strictly increasing.
On a Monday at 00:00, 15 days into the campaign, with $13.50 remaining
(2 affordable actions), Gaussian gap draws of 20 h, end-clip draws of 0.3
(legal for `uniform(0.1, 0.5)`) and second draws 0, both actions are clipped
to the same time 22:42:00, so the schedule contains a tie. -/
theorem plan_times_can_tie :
    ((1:ℚ)/10 ≤ 3/10 ∧ (3:ℚ)/10 ≤ 1/2) ∧
    ¬ List.Chain' (· < ·)
      ((genPlan 0 0 15 (27/2) 0 (fun _ => 20) (fun _ => 3/10) (fun _ => 0)
          (fun _ => 0)).map PlanAction.time_utc) := by
  refine ⟨⟨by norm_num, by norm_num⟩, ?_⟩
  have hfl : ⌊(227:ℚ)/10⌋ = 22 := by
    rw [Int.floor_eq_iff] <;> norm_num
  have hmap : (genPlan 0 0 15 (27/2) 0 (fun _ => 20) (fun _ => 3/10) (fun _ => 0)
      (fun _ => 0)).map PlanAction.time_utc = [227/10, 227/10] := by
    norm_num [genPlan, ACTIVE_HOURS, DAILY_MAX_ACTIONS, FARMING_DURATION_DAYS,
      WEEKEND_REDUCTION, CHAINS, pyRandint, pyInt, genTimes, genTimesGo, timeOfHours,
      List.insertionSort, List.orderedInsert, buildActions, pickType, ACTION_TYPES,
      List.lookup, max_def, min_def, hfl]
  rw [hmap]
  intro h
  exact absurd (List.chain'_cons.mp h).1 (lt_irrefl _)

/-- Claim C6 witness: a concrete mid-morning weekday plan satisfies the
amended invariants. -/
theorem plan_invariants_witness :
    List.Chain' (· ≤ ·)
      ((genPlan 0 10 0 (3/2) 0 (fun _ => 1) (fun _ => 1/4) (fun _ => 0)
          (fun _ => 0)).map PlanAction.time_utc) ∧
    List.Chain' (· ≠ ·)
      ((genPlan 0 10 0 (3/2) 0 (fun _ => 1) (fun _ => 1/4) (fun _ => 0)
          (fun _ => 0)).map PlanAction.action_type) ∧
    ∀ a ∈ genPlan 0 10 0 (3/2) 0 (fun _ => 1) (fun _ => 1/4) (fun _ => 0) (fun _ => 0),
      8 ≤ a.time_utc ∧ a.time_utc < 23 :=
  plan_invariants 0 10 0 (3/2) 0 (fun _ => 1) (fun _ => 1/4) (fun _ => 0) (fun _ => 0)
    (fun _ => ⟨by norm_num, by norm_num⟩) (fun _ => by norm_num)
